import Mathlib

/-!
Shallow embedding of the creator-simulation code of claramaine/t-recs-expanded:
`src/algo_confounding/creator_sim.py` (ChaneyCreators, ideal_content_score_fns,
calc_startup_rec_size, init_sim_state) and `src/src/popularity.py`
(PopularityRecommender.recommend).

Matrices are lists of rows of rationals (numpy float64 arithmetic is modelled
by exact rational arithmetic; the special values produced by numpy division
are modelled by `NpVal`).  Random draws (Generator.binomial,
Generator.dirichlet, Generator.beta, np.random.choice) are modelled by oracle
arguments ranging over the support of the corresponding distribution.
-/

namespace CreatorSim

/-- Result values of numpy float division: finite rationals plus the special
values NaN and the signed infinities that division by zero produces
(creator_sim.py line 109; numpy warnings are suppressed at line 44, so these
special values are produced silently). -/
inductive NpVal where
  | nan : NpVal
  | inf : NpVal
  | ninf : NpVal
  | val : ℚ → NpVal
deriving DecidableEq, Repr

/-- numpy division x / s on float64: ordinary division when s is nonzero; when
s = 0 it silently yields NaN (for 0/0) or a signed infinity, emitting only a
(suppressed) RuntimeWarning. -/
def npDiv (x s : ℚ) : NpVal :=
  if s = 0 then (if x = 0 then NpVal.nan else if 0 < x then NpVal.inf else NpVal.ninf)
  else NpVal.val (x / s)

/-- np.clip(q, 1e-4, 1) on a finite value (creator_sim.py line 112). -/
def clipQ (q : ℚ) : ℚ := min (max q (1/10000)) 1

/-- np.clip on a possibly non-finite float: NaN propagates, the infinities
clamp to the corresponding bound. -/
def clipF : NpVal → NpVal
  | NpVal.nan => NpVal.nan
  | NpVal.inf => NpVal.val 1
  | NpVal.ninf => NpVal.val (1/10000)
  | NpVal.val q => NpVal.val (clipQ q)

/-- np.nonzero(mask)[0]: the indices of the nonzero entries of a vector
(creator_sim.py line 72). -/
def nonzeroIdx (mask : List ℕ) : List ℕ :=
  (mask.enum.filter (fun p => p.2 ≠ 0)).map Prod.fst

/-- Support of Generator.binomial(1, p, n) (creator_sim.py lines 69-71): a 0/1
vector of length n; for p = 1 every Bernoulli trial yields 1 and for p = 0
every trial yields 0. -/
def ValidMask (p : ℚ) (n : ℕ) (mask : List ℕ) : Prop :=
  mask.length = n ∧ ∀ m ∈ mask, (m = 0 ∨ m = 1) ∧ (p = 1 → m = 1) ∧ (p = 0 → m = 0)

instance (p : ℚ) (n : ℕ) (mask : List ℕ) : Decidable (ValidMask p n mask) := by
  unfold ValidMask; infer_instance

/-- numpy slice assignment rows[start:stop, :] = rhs with python slice clamping
and numpy broadcasting on the row dimension: the right-hand side must have
exactly as many rows as the slice, or a single row (which is broadcast across
the slice); otherwise numpy raises ValueError.  The column dimension always
matches in creator_sim.py because the Dirichlet oracle returns rows of width
num_attrs. -/
def sliceAssign (rows : List (List ℚ)) (start stop : ℕ) (rhs : List (List ℚ)) :
    Except String (List (List ℚ)) :=
  let start' := min start rows.length
  let stop' := min stop rows.length
  let L := stop' - start'
  if rhs.length = L then
    Except.ok (rows.take start' ++ rhs ++ rows.drop (start' + L))
  else if rhs.length = 1 then
    Except.ok (rows.take start' ++ List.replicate L rhs.headI ++ rows.drop (start' + L))
  else Except.error "ValueError: could not broadcast input array"

/-- The assignment loop of generate_items (creator_sim.py lines 78-82), one
iteration per (loop index, chosen creator) pair: look up the creator profile,
draw items_per_creator Dirichlet rows with concentration profile * 0.1, and
slice-assign them into rows idx .. (idx+1)*items_per_creator of the block —
the slice START is idx, exactly as written at line 82 of the source. -/
def assignLoop (profiles : List (List ℚ)) (items_per_creator : ℕ)
    (dirichlet : List ℚ → ℕ → List (List ℚ)) (acc : List (List ℚ)) :
    List (ℕ × ℕ) → Except String (List (List ℚ))
  | [] => Except.ok acc
  | ic :: rest =>
      match profiles.get? ic.2 with
      | none => Except.error "IndexError: creator index out of range"
      | some prof =>
          match sliceAssign acc ic.1 ((ic.1 + 1) * items_per_creator)
              (dirichlet (prof.map (fun x => x * (1/10))) ic.1) with
          | Except.error e => Except.error e
          | Except.ok acc' => assignLoop profiles items_per_creator dirichlet acc' rest

/-- ChaneyCreators.generate_items (creator_sim.py lines 61-83).

State is passed explicitly: `profiles` is actual_creator_profiles (one row per
creator), `ordered` is ordered_creator_ids.  The Bernoulli mask drawn at lines
69-71 is the oracle argument `mask`; the Dirichlet sampler of line 82 is the
oracle `dirichlet`, which receives the concentration vector actually passed at
line 82 (the creator profile scaled by 0.1) and the loop index, and returns
items_per_creator rows of width num_attrs.

The first component of the result is the transposed item block of line 83,
represented as the list of its columns (each column is one item vector of
length num_attrs), or the exception the assignment loop raises.  The second
component is the new ordered_creator_ids: it is extended at lines 74-76 before
the loop runs, so the extension survives even when the loop raises. -/
def generate_items (profiles : List (List ℚ)) (ordered : List ℕ)
    (items_per_creator : ℕ) (mask : List ℕ)
    (dirichlet : List ℚ → ℕ → List (List ℚ)) :
    Except String (List (List ℚ)) × List ℕ :=
  let num_creators := profiles.length
  let num_attrs := profiles.headI.length
  let chosen := nonzeroIdx mask
  let ordered' := ordered ++ chosen.flatMap (fun c => List.replicate items_per_creator c)
  let items0 : List (List ℚ) :=
    List.replicate (items_per_creator * num_creators) (List.replicate num_attrs (0:ℚ))
  (assignLoop profiles items_per_creator dirichlet items0 chosen.enum, ordered')

/-- numpy fancy indexing a[ids] on the first axis (creator_sim.py lines 101
and 103): the list of elements at the given indices, raising IndexError on an
out-of-range index. -/
def fancyIndex {α : Type} (l : List α) (ids : List ℕ) : Except String (List α) :=
  match ids with
  | [] => Except.ok []
  | i :: rest =>
      match l.get? i with
      | none => Except.error "IndexError: index out of bounds"
      | some x =>
          match fancyIndex l rest with
          | Except.error e => Except.error e
          | Except.ok xs => Except.ok (x :: xs)

/-- One accumulation step of np.add.at(profiles, (c, slice(None)), w)
(creator_sim.py line 107): add the weighted item row w into profile row c.
An out-of-range row index raises IndexError. -/
def addAt (P : List (List ℚ)) (c : ℕ) (w : List ℚ) : Except String (List (List ℚ)) :=
  match P.get? c with
  | none => Except.error "IndexError: index out of range in np.add.at"
  | some row =>
      if row.length = w.length then
        Except.ok (P.set c (List.zipWith (fun a b => a + b) row w))
      else Except.error "ValueError: shape mismatch in np.add.at"

/-- np.add.at(profiles, (creators_to_update, slice(None)), weighted_items)
(creator_sim.py line 107): unbuffered accumulation, one addAt step per
(creator id, weighted item row) pair, so a creator occurring several times
receives the sum of all its contributions. -/
def addAtFold (P : List (List ℚ)) (pairs : List (ℕ × List ℚ)) :
    Except String (List (List ℚ)) :=
  match pairs with
  | [] => Except.ok P
  | cw :: rest =>
      match addAt P cw.1 cw.2 with
      | Except.error e => Except.error e
      | Except.ok P' => addAtFold P' rest

/-- ChaneyCreators.update_profiles (creator_sim.py lines 85-112).

Line 98 asserts that ordered_creator_ids and the item catalog have the same
length; `items` is the catalog in attribute-major form, represented as the
list of its columns.  Line 100 flattens the interaction matrix row-major;
lines 101 and 103 index ordered_creator_ids and the catalog with the
interacted item ids (IndexError on an out-of-range id); line 107 accumulates
the learning-rate-weighted item vectors into the producing creators' rows;
line 109 divides every row by its sum with NO guard against a zero sum (a
zero sum silently produces NaN or infinity, see npDiv); line 112 clips. -/
def update_profiles (learning_rate : ℚ) (profiles : List (List ℚ))
    (ordered : List ℕ) (items : List (List ℚ))
    (interactions : List (List ℕ)) : Except String (List (List NpVal)) :=
  if ordered.length = items.length then
    let item_ids := interactions.flatten
    match fancyIndex ordered item_ids with
    | Except.error e => Except.error e
    | Except.ok creators_to_update =>
        match fancyIndex items item_ids with
        | Except.error e => Except.error e
        | Except.ok cols =>
            let weighted_items := cols.map (fun col => col.map (fun x => learning_rate * x))
            match addAtFold profiles (creators_to_update.zip weighted_items) with
            | Except.error e => Except.error e
            | Except.ok profiles' =>
                let normalized := profiles'.map (fun row => row.map (fun x => npDiv x row.sum))
                Except.ok (normalized.map (fun row => row.map clipF))
  else Except.error "AssertionError: ordered_creator_ids length must equal item count"

/-- Configuration fields of the argparse args dict consumed by the embedded
functions (creator_sim.py lines 518-557). -/
structure Args where
  repeated_training : Bool
  items_per_creator : ℕ
  num_creators : ℕ
  startup_iters : ℕ
  new_items_per_iter : ℕ
  learning_rate : ℚ

/-- Result of calc_startup_rec_size: either the sentinel string that means all
catalog items, or a fixed item count. -/
inductive RecSize where
  | all : RecSize
  | count : ℕ → RecSize
deriving DecidableEq, Repr

/-- calc_startup_rec_size (creator_sim.py lines 307-316). -/
def calc_startup_rec_size (args : Args) : RecSize :=
  if args.repeated_training then RecSize.all
  else
    let total_items_in_startup :=
      args.items_per_creator * args.num_creators * args.startup_iters
    RecSize.count (total_items_in_startup + args.new_items_per_iter)

/-- The creator-engine fields set by ChaneyCreators.__init__ (creator_sim.py
lines 46-59): ordered_creator_ids starts as the empty array. -/
structure ChaneyCreatorsState where
  items_per_creator : ℕ
  learning_rate : ℚ
  creation_probability : ℚ
  actual_creator_profiles : List (List ℚ)
  ordered_creator_ids : List ℕ

/-- The creator-engine construction performed by init_sim_state
(creator_sim.py lines 285-290): creation_probability is fixed at 1.0. -/
def init_sim_state (args : Args) (creator_profiles : List (List ℚ)) :
    ChaneyCreatorsState where
  items_per_creator := args.items_per_creator
  learning_rate := args.learning_rate
  creation_probability := 1
  actual_creator_profiles := creator_profiles
  ordered_creator_ids := []

/-- The driver loop's sequence of generate_items calls restricted to its
effect on ordered_creator_ids, one Bernoulli mask per step.  (The second
component of generate_items depends only on the mask, so the evolution of
ordered_creator_ids across steps is captured exactly even though creator
profiles also change between steps; see generate_items_ordered below.) -/
def runOrderedIds (profiles : List (List ℚ)) (ipc : ℕ)
    (d : List ℚ → ℕ → List (List ℚ)) (masks : List (List ℕ)) : List ℕ :=
  masks.foldl (fun ordered mask => (generate_items profiles ordered ipc mask d).2) []

/-- Scores returned by the ideal model scoring function: float negative
infinity (creator_sim.py line 198) or a finite value. -/
inductive Score where
  | negInf : Score
  | val : ℚ → Score
deriving DecidableEq, Repr

/-- Column count of a matrix stored as a list of rows. -/
def matCols (m : List (List ℚ)) : ℕ := m.headI.length

def dot (u v : List ℚ) : ℚ := (List.zipWith (fun a b => a * b) u v).sum

/-- Matrix product user_attrs @ item_attrs (creator_sim.py line 191). -/
def matMul (A B : List (List ℚ)) : List (List ℚ) :=
  A.map (fun ar => (List.range (matCols B)).map (fun j => dot ar (B.map (fun r => r.getD j 0))))

/-- np.array([]).reshape((u, i)) (creator_sim.py line 189): legal only when
u * i = 0, otherwise numpy raises ValueError. -/
def reshapeEmpty (u i : ℕ) : List (List ℚ) :=
  if i = 0 then List.replicate u ([] : List ℚ) else []

/-- model_score_fn from ideal_content_score_fns (creator_sim.py lines
183-202).  The closure variable true_user_item_utils is passed in as `cache`
and the updated cache is returned.  Lines 193-194 draw the true utilities
from a Beta distribution whose parameters are computed deterministically (by
mu_sigma_to_alpha_beta, imported from the out-of-src chaney_utils module)
from the clipped mean matrix of lines 191-192 and the fixed sigma; that draw
is modelled by the oracle `betaDraw` applied to the clipped mean matrix, and
its support fixes its shape at (num_users, num_items).  np.hstack (line 195)
requires equal row counts.  Line 190 branches on the requested width being
num_items_per_iter; line 201 is the assert on the cache shape; line 202
subsets the cache and copies it.

model_score_body is the part of the function after the cache has been
resolved (creator_sim.py lines 190-202); model_score_fn below adds the lazy
initialization of lines 187-189. -/
def model_score_body (num_items_per_iter : ℕ)
    (betaDraw : List (List ℚ) → List (List ℚ))
    (c : List (List ℚ))
    (user_attrs item_attrs : List (List ℚ)) :
    Except String (List (List Score) × List (List ℚ)) :=
  let num_users := user_attrs.length
  let num_items := matCols item_attrs
  if num_items = num_items_per_iter then
    let true_utils_mean :=
      (matMul user_attrs item_attrs).map (fun r => r.map (fun x => max x (1/1000000000)))
    let true_utility := betaDraw true_utils_mean
    if c.length = true_utility.length then
      let c' := List.zipWith (fun a b => a ++ b) c true_utility
      Except.ok (c'.map (fun r => r.map (fun _ => Score.negInf)), c')
    else Except.error "ValueError: hstack row count mismatch"
  else
    if (num_users, num_items) = (c.length, matCols c) then
      Except.ok ((c.take num_users).map (fun r => (r.take num_items).map Score.val), c)
    else Except.error "AssertionError: utility cache shape mismatch"

def model_score_fn (num_items_per_iter : ℕ)
    (betaDraw : List (List ℚ) → List (List ℚ))
    (cache : Option (List (List ℚ)))
    (user_attrs item_attrs : List (List ℚ)) :
    Except String (List (List Score) × List (List ℚ)) :=
  match cache with
  | none =>
      if user_attrs.length * matCols item_attrs = 0 then
        model_score_body num_items_per_iter betaDraw
          (reshapeEmpty user_attrs.length (matCols item_attrs)) user_attrs item_attrs
      else Except.error "ValueError: cannot reshape empty array"
  | some c => model_score_body num_items_per_iter betaDraw c user_attrs item_attrs

/-- The comparison realised by np.argsort on one row: ascending by value.
numpy leaves the order of ties unspecified; the model determinizes ties by
index, which no claim depends on. -/
def argRel (row : List ℚ) (i j : ℕ) : Prop :=
  row.getD i 0 < row.getD j 0 ∨ (row.getD i 0 = row.getD j 0 ∧ i ≤ j)

instance (row : List ℚ) (i j : ℕ) : Decidable (argRel row i j) := by
  unfold argRel; infer_instance

/-- np.argsort of one row: the permutation of its index range listing the
entries in ascending order. -/
def rowArgsort (row : List ℚ) : List ℕ :=
  (List.range row.length).insertionSort (argRel row)

/-- self.s_t.argsort() (popularity.py line 45): row-wise argsort. -/
def matArgsort (m : List (List ℚ)) : List (List ℕ) := m.map rowArgsort

/-- The normalized weight vector p / p.sum() of popularity.py lines 46-47,
where p = np.arange(1, num_items + 1): the index at rank j of the ascending
popularity ordering gets weight (j + 1) / (1 + ... + num_items). -/
def choiceWeights (num_items : ℕ) : List ℚ :=
  let p := (List.range num_items).map (fun j : ℕ => ((j : ℚ) + 1))
  p.map (fun x => x / p.sum)

/-- Support of np.random.choice(rec[0], p=weights, size=(num_users, k)) with
the default replace=True (popularity.py line 47): each output cell is an
independent categorical draw of a rank index with positive weight; every rank
index below num_items has positive weight (j + 1) / p.sum().  The draws come
from the process-global numpy random state, modelled by the oracle `draws`;
they are not derived from any explicitly passed seed or stream. -/
def ValidChoiceDraws (num_items : ℕ) (draws : ℕ → ℕ → ℕ) : Prop :=
  ∀ u i, draws u i < num_items ∧ 0 < (choiceWeights num_items).getD (draws u i) 0

/-- PopularityRecommender.recommend (popularity.py lines 44-47): argsort the
score matrix, take row 0 of the result, and fill a (num_users, k) output with
rank-weighted categorical draws from that row with replacement. -/
def recommend (s_t : List (List ℚ)) (num_items num_users k : ℕ)
    (draws : ℕ → ℕ → ℕ) : List (List ℕ) :=
  let rec0 := (matArgsort s_t).headI
  (List.range num_users).map (fun u => (List.range k).map (fun i => rec0.getD (draws u i) 0))

instance (row : List ℚ) : IsTotal ℕ (argRel row) := by
  constructor
  intro i j
  unfold argRel
  rcases lt_trichotomy (row.getD i 0) (row.getD j 0) with h | h | h
  · exact Or.inl (Or.inl h)
  · rcases le_total i j with hij | hij
    · exact Or.inl (Or.inr ⟨h, hij⟩)
    · exact Or.inr (Or.inr ⟨h.symm, hij⟩)
  · exact Or.inr (Or.inl h)

instance (row : List ℚ) : IsTrans ℕ (argRel row) := by
  constructor
  intro a b c hab hbc
  unfold argRel at hab hbc ⊢
  rcases hab with h1 | ⟨h1, h1a⟩ <;> rcases hbc with h2 | ⟨h2, h2a⟩
  · exact Or.inl (h1.trans h2)
  · exact Or.inl (h2 ▸ h1)
  · exact Or.inl (h1 ▸ h2)
  · exact Or.inr ⟨h1.trans h2, le_trans h1a h2a⟩

theorem rowArgsort_perm (row : List ℚ) :
    List.Perm (rowArgsort row) (List.range row.length) :=
  List.perm_insertionSort (argRel row) (List.range row.length)

theorem rowArgsort_sorted (row : List ℚ) :
    List.Sorted (argRel row) (rowArgsort row) :=
  List.sorted_insertionSort (argRel row) (List.range row.length)

theorem matArgsort_headI (m : List (List ℚ)) :
    (matArgsort m).headI = rowArgsort m.headI := by
  cases m with
  | nil => rfl
  | cons r t => rfl

/-- A multi-step creator run driving generate_items with an explicit per-step
random stream: stream t supplies the Bernoulli mask and the Dirichlet sampler
consumed at step t.  Returns the final ordered_creator_ids together with the
per-step generate_items results. -/
def generateRun (profiles : List (List ℚ)) (ipc : ℕ)
    (stream : ℕ → List ℕ × (List ℚ → ℕ → List (List ℚ))) :
    ℕ → List ℕ × List (Except String (List (List ℚ)))
  | 0 => ([], [])
  | T + 1 =>
      let prev := generateRun profiles ipc stream T
      let step := generate_items profiles prev.1 ipc (stream T).1 (stream T).2
      (step.2, prev.2 ++ [step.1])

/-! ## Theorems -/

/-- Claim C8: calc_startup_rec_size returns the all-items sentinel when
repeated_training is set, and otherwise returns exactly
items_per_creator * num_creators * startup_iters + new_items_per_iter,
everything produced during startup plus one step's worth of interleaved new
items. -/
theorem calc_startup_rec_size_spec (ipc nc si nii : ℕ) (lr : ℚ) :
    calc_startup_rec_size ⟨true, ipc, nc, si, nii, lr⟩ = RecSize.all
    ∧ calc_startup_rec_size ⟨false, ipc, nc, si, nii, lr⟩ =
        RecSize.count (ipc * nc * si + nii) :=
  ⟨rfl, rfl⟩

/-- Claim C2 (code bug): with two creators, items_per_creator = 1 and a
Bernoulli mask [1, 0] selecting only creator 0 (possible whenever
creation_probability < 1), generate_items appends a single creator id to
ordered_creator_ids but returns a batch with TWO item columns (the unselected
creator's column is left as the zero vector and returned anyway), so
len(ordered_creator_ids) = 1 differs from the cumulative number of returned
columns = 2 — and update_profiles on the grown catalog then fails the very
assert (creator_sim.py line 98) that documents the claimed equality. -/
theorem generate_items_partial_mask_mismatch :
    generate_items [[(1:ℚ)/2], [1/2]] [] 1 [1, 0] (fun a _ => [a.map (fun _ => 1)]) =
      (Except.ok [[1], [0]], [0])
    ∧ update_profiles (1/20) [[(1:ℚ)/2], [1/2]] [0] [[1], [0]] [] =
      Except.error "AssertionError: ordered_creator_ids length must equal item count" := by
  constructor <;> rfl

/-- Claim C3 (code bug): the assignment loop of generate_items slices
items[idx : (idx+1)*items_per_creator] instead of
items[idx*items_per_creator : (idx+1)*items_per_creator].  With
items_per_creator = 2 and two selected creators, the second iteration
(idx = 1) targets rows 1..3 — a 3-row slice — while the Dirichlet draw has
2 rows, so numpy raises ValueError and the selected creators do not each
contribute items_per_creator item vectors.  ordered_creator_ids has already
been extended by [0, 0, 1, 1] when the loop raises. -/
theorem generate_items_slice_bug :
    (generate_items [[(1:ℚ)/2], [1/2]] [] 2 [1, 1]
        (fun a _ => [a.map (fun _ => 1), a.map (fun _ => 1)])).1 =
      Except.error "ValueError: could not broadcast input array"
    ∧ (generate_items [[(1:ℚ)/2], [1/2]] [] 2 [1, 1]
        (fun a _ => [a.map (fun _ => 1), a.map (fun _ => 1)])).2 = [0, 0, 1, 1] := by
  constructor <;> rfl

/-- Claim C7 (code bug): under the all-zero Bernoulli mask (the only mask in
the support of creation_probability = 0), generate_items does NOT return an
empty batch: it returns the full zero-initialized block of
items_per_creator * num_creators columns (here one column), so the catalog
grows by that many zero items every step. -/
theorem generate_items_empty_mask_growth :
    ValidMask 0 1 [0]
    ∧ generate_items [[(1:ℚ)/2]] [] 1 [0] (fun a _ => [a.map (fun _ => 1)]) =
        (Except.ok [[0]], []) := by
  refine ⟨by decide, rfl⟩

set_option maxRecDepth 10000 in
/-- Claim C1, counterexample: a single update_profiles call after which every
coordinate lies in [1e-4, 1] but the row sum is 1 + 1/12000, exceeding 1 by
more than 1e-6 — far beyond floating tolerance.  One creator with profile
[1e-4, 0.9999], one catalog item with attribute vector (0, 1), 100 users all
interacting with that item, learning_rate 0.05: the accumulated row is
[1e-4, 5.9999] with sum 6; renormalizing gives [1/60000, 59999/60000] whose
first coordinate is below 1e-4, and the final clip raises it to 1e-4 without
renormalizing again, breaking the unit sum. -/
theorem update_profiles_sum_exceeds_tolerance :
    update_profiles (1/20) [[(1:ℚ)/10000, 9999/10000]] [0] [[0, 1]]
        (List.replicate 100 [0]) =
      Except.ok [[NpVal.val (1/10000), NpVal.val (59999/60000)]]
    ∧ ((1:ℚ)/10000 + 59999/60000 > 1 + 1/1000000) := by
  constructor
  · norm_num [update_profiles, fancyIndex, addAtFold, addAt, npDiv, clipF, clipQ,
      List.replicate]
  · norm_num

/-- Claim C6, counterexample: a creator profile row with zero sum reaches the
renormalization step and update_profiles does NOT fail fast: the unguarded
division (creator_sim.py line 109, warnings suppressed at line 44) silently
produces NaN in every coordinate of the row and the call returns normally. -/
theorem update_profiles_silent_zero_divide :
    update_profiles (1/20) [[(0:ℚ), 0]] [0] [[0, 0]] [] =
      Except.ok [[NpVal.nan, NpVal.nan]] := by
  norm_num [update_profiles, fancyIndex, addAtFold, addAt, npDiv, clipF, clipQ]

/-! Helper lemmas about update_profiles used by the C1 and C6 theorems. -/

/-- Well-formedness invariant of a profile matrix entering the accumulation
step: rectangular with rows of width n, nonnegative, and positive row sums. -/
def GoodMat (n : ℕ) (P : List (List ℚ)) : Prop :=
  ∀ row ∈ P, row.length = n ∧ (∀ x ∈ row, 0 ≤ x) ∧ 0 < row.sum

theorem fancyIndex_ok {α : Type} (l : List α) (ids : List ℕ)
    (h : ∀ i ∈ ids, i < l.length) :
    ∃ xs, fancyIndex l ids = Except.ok xs ∧ xs.length = ids.length ∧ ∀ x ∈ xs, x ∈ l := by
  induction ids with
  | nil => exact ⟨[], rfl, rfl, by simp⟩
  | cons i rest ih =>
      have hi : i < l.length := h i (List.mem_cons_self i rest)
      obtain ⟨xs, hxs, hlenxs, hmem⟩ := ih (fun j hj => h j (List.mem_cons_of_mem _ hj))
      have hget : l[i]? = some l[i] := List.getElem?_eq_getElem hi
      refine ⟨l[i] :: xs, ?_, by simp [hlenxs], ?_⟩
      · simp [fancyIndex, hget, hxs]
      · intro y hy
        rcases List.mem_cons.1 hy with rfl | hy
        · exact List.getElem_mem hi
        · exact hmem y hy

theorem zipWith_add_nonneg :
    ∀ (u v : List ℚ), (∀ x ∈ u, 0 ≤ x) → (∀ x ∈ v, 0 ≤ x) →
      ∀ x ∈ List.zipWith (fun a b => a + b) u v, 0 ≤ x := by
  intro u
  induction u with
  | nil => intro v _ _ x hx; simp at hx
  | cons a u ih =>
      intro v hu hv x hx
      cases v with
      | nil => simp at hx
      | cons b v =>
          rcases List.mem_cons.1 hx with rfl | hx
          · exact add_nonneg (hu a (by simp)) (hv b (by simp))
          · exact ih v (fun y hy => hu y (by simp [hy])) (fun y hy => hv y (by simp [hy])) x hx

theorem sum_zipWith_add :
    ∀ (u v : List ℚ), u.length = v.length →
      (List.zipWith (fun a b => a + b) u v).sum = u.sum + v.sum := by
  intro u
  induction u with
  | nil => intro v h; simp [(List.length_eq_zero.1 h.symm)]
  | cons a u ih =>
      intro v h
      cases v with
      | nil => simp at h
      | cons b v =>
          simp only [List.zipWith_cons_cons, List.sum_cons, ih v (by simpa using h)]
          ring

theorem addAt_ok (n : ℕ) (P : List (List ℚ)) (c : ℕ) (w : List ℚ)
    (hP : GoodMat n P) (hc : c < P.length) (hw : w.length = n)
    (hw0 : ∀ x ∈ w, 0 ≤ x) :
    ∃ P', addAt P c w = Except.ok P' ∧ GoodMat n P' ∧ P'.length = P.length := by
  have hget : P[c]? = some P[c] := List.getElem?_eq_getElem hc
  set row := P[c] with hrowdef
  have hrowmem : row ∈ P := List.getElem_mem hc
  obtain ⟨hrl, hr0, hrs⟩ := hP row hrowmem
  have hrw : row.length = w.length := by rw [hrl, hw]
  refine ⟨P.set c (List.zipWith (fun a b => a + b) row w), ?_, ?_, by simp⟩
  · simp [addAt, hget, hrw]
  · intro r hr
    rcases List.mem_or_eq_of_mem_set hr with hr | rfl
    · exact hP r hr
    · refine ⟨by simp [List.length_zipWith, hrl, hw], ?_, ?_⟩
      · exact zipWith_add_nonneg row w hr0 hw0
      · rw [sum_zipWith_add row w hrw]
        have : 0 ≤ w.sum := List.sum_nonneg hw0
        linarith

theorem addAtFold_ok (n : ℕ) :
    ∀ (pairs : List (ℕ × List ℚ)) (P : List (List ℚ)), GoodMat n P →
      (∀ cw ∈ pairs, cw.1 < P.length ∧ cw.2.length = n ∧ ∀ x ∈ cw.2, 0 ≤ x) →
      ∃ P', addAtFold P pairs = Except.ok P' ∧ GoodMat n P' ∧ P'.length = P.length := by
  intro pairs
  induction pairs with
  | nil => exact fun P hP _ => ⟨P, rfl, hP, rfl⟩
  | cons cw rest ih =>
      intro P hP hpairs
      obtain ⟨hc, hwlen, hw0⟩ := hpairs cw (by simp)
      obtain ⟨P', hP'eq, hP', hlen'⟩ := addAt_ok n P cw.1 cw.2 hP hc hwlen hw0
      obtain ⟨P'', hP''eq, hP'', hlen''⟩ := ih P' hP'
        (fun cw' h => ⟨hlen' ▸ (hpairs cw' (by simp [h])).1, (hpairs cw' (by simp [h])).2⟩)
      exact ⟨P'', by simp [addAtFold, hP'eq, hP''eq], hP'', by rw [hlen'', hlen']⟩

theorem sum_map_div (row : List ℚ) (s : ℚ) :
    (row.map (fun x => x / s)).sum = row.sum / s := by
  induction row with
  | nil => simp
  | cons a l ih => simp [ih, add_div]

theorem sum_map_add_const (l : List ℚ) (f : ℚ → ℚ) (c : ℚ) :
    (l.map (fun x => f x + c)).sum = (l.map f).sum + l.length * c := by
  induction l with
  | nil => simp
  | cons a t ih => simp [ih]; ring

theorem clipQ_bounds (q : ℚ) (h0 : 0 ≤ q) (h1 : q ≤ 1) :
    1/10000 ≤ clipQ q ∧ clipQ q ≤ 1 ∧ q ≤ clipQ q ∧ clipQ q ≤ q + 1/10000 := by
  unfold clipQ
  rcases le_or_lt (1/10000 : ℚ) q with hq | hq
  · rw [max_eq_left hq, min_eq_left h1]
    exact ⟨hq, h1, le_refl q, by linarith⟩
  · rw [max_eq_right hq.le, min_eq_left (by norm_num : (1:ℚ)/10000 ≤ 1)]
    exact ⟨le_refl _, by norm_num, hq.le, by linarith⟩

theorem normalize_clip_row (row : List ℚ) (n : ℕ) (hlen : row.length = n)
    (h0 : ∀ x ∈ row, 0 ≤ x) (hs : 0 < row.sum) :
    (row.map (fun x => npDiv x row.sum)).map clipF =
      (row.map (fun x => clipQ (x / row.sum))).map NpVal.val
    ∧ (row.map (fun x => clipQ (x / row.sum))).length = n
    ∧ (∀ y ∈ row.map (fun x => clipQ (x / row.sum)), 1/10000 ≤ y ∧ y ≤ 1)
    ∧ 1 ≤ (row.map (fun x => clipQ (x / row.sum))).sum
    ∧ (row.map (fun x => clipQ (x / row.sum))).sum ≤ 1 + n * (1/10000) := by
  have hdiv : ∀ x ∈ row, 0 ≤ x / row.sum ∧ x / row.sum ≤ 1 := by
    intro x hx
    constructor
    · exact div_nonneg (h0 x hx) hs.le
    · rw [div_le_one hs]
      exact List.single_le_sum h0 x hx
  constructor
  · rw [List.map_map, List.map_map]
    refine List.map_congr_left ?_
    intro x _
    simp [Function.comp, npDiv, hs.ne', clipF]
  refine ⟨by simp [hlen], ?_, ?_, ?_⟩
  · intro y hy
    obtain ⟨x, hx, rfl⟩ := List.mem_map.1 hy
    obtain ⟨hd0, hd1⟩ := hdiv x hx
    exact ⟨(clipQ_bounds _ hd0 hd1).1, (clipQ_bounds _ hd0 hd1).2.1⟩
  · have h1 : (row.map (fun x => x / row.sum)).sum = 1 := by
      rw [sum_map_div, div_self hs.ne']
    calc (1:ℚ) = (row.map (fun x => x / row.sum)).sum := h1.symm
      _ ≤ (row.map (fun x => clipQ (x / row.sum))).sum := by
          refine List.sum_le_sum ?_
          intro x hx
          exact (clipQ_bounds _ (hdiv x hx).1 (hdiv x hx).2).2.2.1
  · have h1 : (row.map (fun x => x / row.sum)).sum = 1 := by
      rw [sum_map_div, div_self hs.ne']
    calc (row.map (fun x => clipQ (x / row.sum))).sum
        ≤ (row.map (fun x => x / row.sum + 1/10000)).sum := by
          refine List.sum_le_sum ?_
          intro x hx
          exact (clipQ_bounds _ (hdiv x hx).1 (hdiv x hx).2).2.2.2
      _ = 1 + n * (1/10000) := by
          rw [sum_map_add_const row (fun x => x / row.sum) (1/10000), h1, hlen]

theorem update_profiles_ok_core (lr : ℚ) (P : List (List ℚ)) (ordered : List ℕ)
    (items : List (List ℚ)) (interactions : List (List ℕ)) (n : ℕ)
    (hlr : 0 ≤ lr)
    (hlen : ordered.length = items.length)
    (hord : ∀ c ∈ ordered, c < P.length)
    (hids : ∀ i ∈ interactions.flatten, i < items.length)
    (hP : GoodMat n P)
    (hitems : ∀ col ∈ items, col.length = n ∧ ∀ x ∈ col, 0 ≤ x) :
    ∃ R : List (List ℚ),
      update_profiles lr P ordered items interactions =
        Except.ok (R.map (fun r => r.map NpVal.val))
      ∧ R.length = P.length
      ∧ ∀ r ∈ R, r.length = n ∧ (∀ x ∈ r, 1/10000 ≤ x ∧ x ≤ 1)
          ∧ 1 ≤ r.sum ∧ r.sum ≤ 1 + n * (1/10000) := by
  obtain ⟨cs, hcs, hcslen, hcsmem⟩ :=
    fancyIndex_ok ordered interactions.flatten (fun i hi => hlen ▸ hids i hi)
  obtain ⟨cols, hcols, hcolslen, hcolsmem⟩ := fancyIndex_ok items interactions.flatten hids
  have hzip : ∀ cw ∈ cs.zip (cols.map (fun col => col.map (fun x => lr * x))),
      cw.1 < P.length ∧ cw.2.length = n ∧ ∀ x ∈ cw.2, 0 ≤ x := by
    intro cw hcw
    obtain ⟨cc, w⟩ := cw
    obtain ⟨h1, h2⟩ := List.of_mem_zip hcw
    obtain ⟨col, hcol, rfl⟩ := List.mem_map.1 h2
    refine ⟨hord cc (hcsmem cc h1), ?_, ?_⟩
    · simp [(hitems col (hcolsmem col hcol)).1]
    · intro x hx
      obtain ⟨y, hy, rfl⟩ := List.mem_map.1 hx
      exact mul_nonneg hlr ((hitems col (hcolsmem col hcol)).2 y hy)
  obtain ⟨P', hP'eq, hP', hlen'⟩ :=
    addAtFold_ok n (cs.zip (cols.map (fun col => col.map (fun x => lr * x)))) P hP hzip
  refine ⟨P'.map (fun row => row.map (fun x => clipQ (x / row.sum))), ?_, by simp [hlen'], ?_⟩
  · unfold update_profiles
    rw [if_pos hlen]
    simp only [hcs, hcols, hP'eq]
    rw [List.map_map]
    congr 1
    rw [List.map_map]
    refine List.map_congr_left ?_
    intro row hrow
    obtain ⟨hrl, hr0, hrs⟩ := hP' row hrow
    exact (normalize_clip_row row n hrl hr0 hrs).1
  · intro r hr
    obtain ⟨row, hrow, rfl⟩ := List.mem_map.1 hr
    obtain ⟨hrl, hr0, hrs⟩ := hP' row hrow
    obtain ⟨_, h2, h3, h4, h5⟩ := normalize_clip_row row n hrl hr0 hrs
    exact ⟨h2, h3, h4, h5⟩

/-- Claim C1, amended: for every update_profiles call on a well-formed state
(nonnegative rectangular profiles with positive row sums, matching
ordered_creator_ids/catalog lengths, in-range indices, nonnegative item
columns, nonnegative learning rate), the call returns normally, every
coordinate of every post-update row lies in [1e-4, 1], and every row sum lies
in [1, 1 + num_attrs * 1e-4] — NOT within floating tolerance of 1, because
the clip of line 112 runs after the renormalization of line 109 and only
raises coordinates.  The sum equals 1 exactly when no coordinate was
clipped. -/
theorem update_profiles_simplex_clip (lr : ℚ) (P : List (List ℚ)) (ordered : List ℕ)
    (items : List (List ℚ)) (interactions : List (List ℕ)) (n : ℕ)
    (hlr : 0 ≤ lr)
    (hlen : ordered.length = items.length)
    (hord : ∀ c ∈ ordered, c < P.length)
    (hids : ∀ row ∈ interactions, ∀ i ∈ row, i < items.length)
    (hP : ∀ row ∈ P, row.length = n ∧ (∀ x ∈ row, 0 ≤ x) ∧ 0 < row.sum)
    (hitems : ∀ col ∈ items, col.length = n ∧ ∀ x ∈ col, 0 ≤ x) :
    ∃ R : List (List ℚ),
      update_profiles lr P ordered items interactions =
        Except.ok (R.map (fun r => r.map NpVal.val))
      ∧ R.length = P.length
      ∧ ∀ r ∈ R, r.length = n ∧ (∀ x ∈ r, 1/10000 ≤ x ∧ x ≤ 1)
          ∧ 1 ≤ r.sum ∧ r.sum ≤ 1 + n * (1/10000) := by
  refine update_profiles_ok_core lr P ordered items interactions n hlr hlen hord ?_ hP hitems
  intro i hi
  obtain ⟨row, hrow, hi⟩ := List.mem_flatten.1 hi
  exact hids row hrow i hi

/-- Witness for update_profiles_simplex_clip at a concrete input: one creator
with profile [1/2, 1/2], one catalog item [1/2, 1/2], one user interacting
with it, learning rate 0.05. -/
theorem update_profiles_simplex_clip_w :
    ∃ R : List (List ℚ),
      update_profiles (1/20) [[(1:ℚ)/2, 1/2]] [0] [[(1:ℚ)/2, 1/2]] [[0]] =
        Except.ok (R.map (fun r => r.map NpVal.val))
      ∧ R.length = 1
      ∧ ∀ r ∈ R, r.length = 2 ∧ (∀ x ∈ r, 1/10000 ≤ x ∧ x ≤ 1)
          ∧ 1 ≤ r.sum ∧ r.sum ≤ 1 + 2 * (1/10000) := by
  have h := update_profiles_simplex_clip (1/20) [[(1:ℚ)/2, 1/2]] [0] [[(1:ℚ)/2, 1/2]]
    [[0]] 2
    (by norm_num) rfl (by simp) (by simp)
    (by
      intro row hrow
      simp only [List.mem_singleton] at hrow
      subst hrow
      refine ⟨rfl, ?_, by norm_num⟩
      intro x hx
      simp only [List.mem_cons, List.not_mem_nil, or_false] at hx
      rcases hx with rfl | rfl <;> norm_num)
    (by
      intro col hcol
      simp only [List.mem_singleton] at hcol
      subst hcol
      refine ⟨rfl, ?_⟩
      intro x hx
      simp only [List.mem_cons, List.not_mem_nil, or_false] at hx
      rcases hx with rfl | rfl <;> norm_num)
  simpa using h

/-- Claim C6, amended (positive part): from any state satisfying the profile
invariant — every coordinate at least 1e-4, so in particular every row sum at
the renormalization step is strictly positive — update_profiles never reaches
the zero-sum division: it returns normally with every produced coordinate a
finite value (no NaN or infinity).  Together with
update_profiles_silent_zero_divide this shows the division is unguarded but
the silent-divide branch is unreachable from invariant-respecting states. -/
theorem update_profiles_no_zero_divide (lr : ℚ) (P : List (List ℚ)) (ordered : List ℕ)
    (items : List (List ℚ)) (interactions : List (List ℕ)) (n : ℕ)
    (hn : 0 < n)
    (hlr : 0 ≤ lr)
    (hlen : ordered.length = items.length)
    (hord : ∀ c ∈ ordered, c < P.length)
    (hids : ∀ row ∈ interactions, ∀ i ∈ row, i < items.length)
    (hP : ∀ row ∈ P, row.length = n ∧ ∀ x ∈ row, 1/10000 ≤ x)
    (hitems : ∀ col ∈ items, col.length = n ∧ ∀ x ∈ col, 0 ≤ x) :
    ∃ R : List (List ℚ),
      update_profiles lr P ordered items interactions =
        Except.ok (R.map (fun r => r.map NpVal.val)) := by
  have hP' : GoodMat n P := by
    intro row hrow
    obtain ⟨hrl, hr4⟩ := hP row hrow
    refine ⟨hrl, fun x hx => le_trans (by norm_num) (hr4 x hx), ?_⟩
    cases row with
    | nil => exact absurd hrl (by simp; omega)
    | cons a t =>
        have ha : 1/10000 ≤ a := hr4 a (by simp)
        have ht : 0 ≤ t.sum :=
          List.sum_nonneg (fun x hx => le_trans (by norm_num) (hr4 x (by simp [hx])))
        simp only [List.sum_cons]
        linarith
  obtain ⟨R, hR, -, -⟩ := update_profiles_ok_core lr P ordered items interactions n
    hlr hlen hord
    (by
      intro i hi
      obtain ⟨row, hrow, hi⟩ := List.mem_flatten.1 hi
      exact hids row hrow i hi)
    hP' hitems
  exact ⟨R, hR⟩

/-- Witness for update_profiles_no_zero_divide at a concrete input satisfying
the profile invariant. -/
theorem update_profiles_no_zero_divide_w :
    ∃ R : List (List ℚ),
      update_profiles (1/20) [[(3:ℚ)/4, 1/4]] [0] [[(1:ℚ)/4, 3/4]] [[0]] =
        Except.ok (R.map (fun r => r.map NpVal.val)) := by
  refine update_profiles_no_zero_divide (1/20) [[(3:ℚ)/4, 1/4]] [0] [[(1:ℚ)/4, 3/4]]
    [[0]] 2 (by norm_num) (by norm_num) rfl (by simp) (by simp) ?_ ?_
  · intro row hrow
    simp only [List.mem_singleton] at hrow
    subst hrow
    refine ⟨rfl, ?_⟩
    intro x hx
    simp only [List.mem_cons, List.not_mem_nil, or_false] at hx
    rcases hx with rfl | rfl <;> norm_num
  · intro col hcol
    simp only [List.mem_singleton] at hcol
    subst hcol
    refine ⟨rfl, ?_⟩
    intro x hx
    simp only [List.mem_cons, List.not_mem_nil, or_false] at hx
    rcases hx with rfl | rfl <;> norm_num

/-- Claim C5, counterexample: np.random.choice is called with its default
replace=True, so the k draws for one user are independent and a user can be
recommended the same item twice in a single recommend call.  With scores
[[1, 0]] the ascending argsort of row 0 is [1, 0]; the categorical draw
picking rank 0 for every cell (a positive-probability outcome, weight 1/3)
recommends item 1 twice to both users. -/
theorem pop_recommend_duplicates :
    ValidChoiceDraws 2 (fun _ _ => 0)
    ∧ recommend [[(1:ℚ), 0]] 2 2 2 (fun _ _ => 0) = [[1, 1], [1, 1]]
    ∧ ¬ ([1, 1] : List ℕ).Nodup := by
  refine ⟨?_, ?_, by decide⟩
  · intro u i
    show 0 < 2 ∧ 0 < (choiceWeights 2).getD 0 0
    norm_num [choiceWeights, List.range_succ]
  · norm_num [recommend, matArgsort, rowArgsort, argRel, List.insertionSort,
      List.orderedInsert, List.range_succ]

/-- Claim C4: for the ideal model scoring function with a resolved utility
cache c of num_users rows (rectangular), (1) two successive calls with an
item batch of width num_items_per_iter — no intervening full-width call —
both succeed and the SECOND call returns negative infinity for every entry of
its result (the first does too); (2) a call with the full catalog width (the
cache's width, which the code distinguishes from a batch call by it being
different from num_items_per_iter, creator_sim.py line 190) returns exactly
the previously cached true utilities, mapped to finite scores, with the cache
unchanged; (3) a call whose requested shape differs from the cache shape
trips the assert of line 201 and aborts.  The Beta-draw oracle returns one
row per row of the mean matrix it is given, as the numpy draw of size
(num_users, num_items) does. -/
theorem ideal_model_score_caching (npi : ℕ)
    (betaDraw : List (List ℚ) → List (List ℚ))
    (c ua ia1 ia2 iaF iaM : List (List ℚ))
    (hB : ∀ m : List (List ℚ), (betaDraw m).length = m.length)
    (hc : c.length = ua.length)
    (hrect : ∀ r ∈ c, r.length = matCols c)
    (h1 : matCols ia1 = npi) (h2 : matCols ia2 = npi) :
    (∃ M1 c1, model_score_fn npi betaDraw (some c) ua ia1 = Except.ok (M1, c1)
      ∧ c1.length = ua.length
      ∧ ∃ M2 c2, model_score_fn npi betaDraw (some c1) ua ia2 = Except.ok (M2, c2)
        ∧ (∀ r ∈ M2, ∀ s ∈ r, s = Score.negInf)
        ∧ (∀ r ∈ M1, ∀ s ∈ r, s = Score.negInf))
    ∧ ((matCols iaF = matCols c ∧ matCols iaF ≠ npi ∧ ua.length = c.length) →
        model_score_fn npi betaDraw (some c) ua iaF =
          Except.ok (c.map (fun r => r.map Score.val), c))
    ∧ ((matCols iaM ≠ npi ∧ (ua.length, matCols iaM) ≠ (c.length, matCols c)) →
        model_score_fn npi betaDraw (some c) ua iaM =
          Except.error "AssertionError: utility cache shape mismatch") := by
  have hmeanlen : ∀ ia : List (List ℚ),
      ((matMul ua ia).map (fun r => r.map (fun x => max x (1/1000000000)))).length
        = ua.length := by
    intro ia
    simp [matMul]
  have hbatch : ∀ (cc ia : List (List ℚ)), cc.length = ua.length → matCols ia = npi →
      model_score_fn npi betaDraw (some cc) ua ia =
        Except.ok
          ((List.zipWith (fun a b => a ++ b) cc
              (betaDraw ((matMul ua ia).map (fun r => r.map (fun x => max x (1/1000000000)))))).map
            (fun r => r.map (fun _ => Score.negInf)),
           List.zipWith (fun a b => a ++ b) cc
             (betaDraw ((matMul ua ia).map (fun r => r.map (fun x => max x (1/1000000000)))))) := by
    intro cc ia hcc hia
    have ht : cc.length =
        (betaDraw ((matMul ua ia).map (fun r => r.map (fun x => max x (1/1000000000))))).length := by
      rw [hB, hmeanlen, hcc]
    simp only [model_score_fn, model_score_body]
    rw [if_pos hia, if_pos ht]
  refine ⟨?_, ?_, ?_⟩
  · have hcall1 := hbatch c ia1 hc.symm.symm h1
    set t1 := betaDraw ((matMul ua ia1).map (fun r => r.map (fun x => max x (1/1000000000)))) with ht1
    have hc1len : (List.zipWith (fun a b : List ℚ => a ++ b) c t1).length = ua.length := by
      rw [List.length_zipWith, ht1, hB, hmeanlen, hc]
      exact min_self _
    refine ⟨_, _, hcall1, hc1len, ?_⟩
    have hcall2 := hbatch (List.zipWith (fun a b : List ℚ => a ++ b) c t1) ia2 hc1len h2
    refine ⟨_, _, hcall2, ?_, ?_⟩
    · intro r hr s hs
      obtain ⟨rr, _, rfl⟩ := List.mem_map.1 hr
      obtain ⟨x, _, rfl⟩ := List.mem_map.1 hs
      rfl
    · intro r hr s hs
      obtain ⟨rr, _, rfl⟩ := List.mem_map.1 hr
      obtain ⟨x, _, rfl⟩ := List.mem_map.1 hs
      rfl
  · rintro ⟨hwF, hneF, hual⟩
    simp only [model_score_fn, model_score_body]
    rw [if_neg hneF]
    rw [if_pos (by rw [hual, hwF])]
    congr 1
    rw [hual, List.take_length]
    refine congrArg₂ Prod.mk ?_ rfl
    refine List.map_congr_left ?_
    intro r hr
    rw [hwF, ← hrect r hr, List.take_length]
  · rintro ⟨hneM, hshape⟩
    simp only [model_score_fn, model_score_body]
    rw [if_neg hneM, if_neg hshape]

/-- Witness for ideal_model_score_caching at concrete inputs: cache
[[1/2, 1/3]] (1 user, 2 cached items), num_items_per_iter = 1, identity Beta
oracle, batch calls on 1-column item matrices, a full-width call on a
2-column matrix and a mismatched call on a 3-column matrix. -/
theorem ideal_model_score_caching_w :
    (∃ M1 c1, model_score_fn 1 (fun m => m) (some [[(1:ℚ)/2, 1/3]]) [[1]] [[5]] =
        Except.ok (M1, c1)
      ∧ c1.length = 1
      ∧ ∃ M2 c2, model_score_fn 1 (fun m => m) (some c1) [[1]] [[7]] = Except.ok (M2, c2)
        ∧ (∀ r ∈ M2, ∀ s ∈ r, s = Score.negInf)
        ∧ (∀ r ∈ M1, ∀ s ∈ r, s = Score.negInf))
    ∧ ((matCols [[(7:ℚ), 8]] = matCols [[(1:ℚ)/2, 1/3]] ∧ matCols [[(7:ℚ), 8]] ≠ 1
          ∧ ([[(1:ℚ)]] : List (List ℚ)).length = ([[(1:ℚ)/2, 1/3]] : List (List ℚ)).length) →
        model_score_fn 1 (fun m => m) (some [[(1:ℚ)/2, 1/3]]) [[1]] [[(7:ℚ), 8]] =
          Except.ok ([[(1:ℚ)/2, 1/3]].map (fun r => r.map Score.val), [[(1:ℚ)/2, 1/3]]))
    ∧ ((matCols [[(7:ℚ), 8, 9]] ≠ 1
          ∧ (([[(1:ℚ)]] : List (List ℚ)).length, matCols [[(7:ℚ), 8, 9]]) ≠
              (([[(1:ℚ)/2, 1/3]] : List (List ℚ)).length, matCols [[(1:ℚ)/2, 1/3]])) →
        model_score_fn 1 (fun m => m) (some [[(1:ℚ)/2, 1/3]]) [[1]] [[(7:ℚ), 8, 9]] =
          Except.error "AssertionError: utility cache shape mismatch") := by
  exact ideal_model_score_caching 1 (fun m => m) [[(1:ℚ)/2, 1/3]] [[1]] [[5]] [[7]]
    [[(7:ℚ), 8]] [[(7:ℚ), 8, 9]] (fun _ => rfl) rfl
    (by intro r hr; simp only [List.mem_singleton] at hr; subst hr; rfl) rfl rfl

/-- Claim C9, counterexample: PopularityRecommender.recommend draws from the
process-global numpy random state (np.random.choice, popularity.py line 47),
which is not part of the explicitly passed configuration; two runs with
identical configuration but different global states (both in the support of
the categorical distribution) return different recommendations, so the output
is not a function of the configuration and explicit seed alone. -/
theorem pop_recommend_global_state_dependence :
    ValidChoiceDraws 2 (fun _ _ => 0)
    ∧ ValidChoiceDraws 2 (fun _ _ => 1)
    ∧ recommend [[(1:ℚ), 0]] 2 1 1 (fun _ _ => 0) ≠
        recommend [[(1:ℚ), 0]] 2 1 1 (fun _ _ => 1) := by
  refine ⟨?_, ?_, ?_⟩
  · intro u i
    show 0 < 2 ∧ 0 < (choiceWeights 2).getD 0 0
    norm_num [choiceWeights, List.range_succ]
  · intro u i
    show 1 < 2 ∧ 0 < (choiceWeights 2).getD 1 0
    norm_num [choiceWeights, List.range_succ]
  · norm_num [recommend, matArgsort, rowArgsort, argRel, List.insertionSort,
      List.orderedInsert, List.range_succ]

/-- Claim C5, amended: recommend's output entries are item indices drawn from
row 0 of the ascending argsort of the score matrix — a permutation of the
whole item range, sorted so that higher-scored items sit at higher ranks —
and the weight vector p/p.sum attaches to rank j the weight (j+1)/p.sum:
the weights sum to 1 and increase strictly with rank, so selection
probability is proportional to linear rank weight.  Sampling is WITH
replacement (the per-cell draws are independent), so duplicates within one
user's row are possible (see pop_recommend_duplicates). -/
theorem pop_recommend_rank_weighted (s_t : List (List ℚ)) (num_items num_users k : ℕ)
    (draws : ℕ → ℕ → ℕ)
    (hn : 0 < num_items)
    (hrow : s_t.headI.length = num_items)
    (hd : ValidChoiceDraws num_items draws) :
    (∀ row ∈ recommend s_t num_items num_users k draws, ∀ x ∈ row,
        x ∈ (matArgsort s_t).headI ∧ x < num_items)
    ∧ List.Perm ((matArgsort s_t).headI) (List.range num_items)
    ∧ (∀ a b : ℕ, a < b → b < num_items →
        s_t.headI.getD ((matArgsort s_t).headI.getD a 0) 0 ≤
          s_t.headI.getD ((matArgsort s_t).headI.getD b 0) 0)
    ∧ (choiceWeights num_items).sum = 1
    ∧ (∀ a b : ℕ, a < b → b < num_items →
        (choiceWeights num_items).getD a 0 < (choiceWeights num_items).getD b 0) := by
  have hperm : List.Perm ((matArgsort s_t).headI) (List.range num_items) := by
    rw [matArgsort_headI, ← hrow]
    exact rowArgsort_perm s_t.headI
  have hlenrec : ((matArgsort s_t).headI).length = num_items := by
    rw [hperm.length_eq, List.length_range]
  have hp : 0 < ((List.range num_items).map (fun j : ℕ => ((j : ℚ) + 1))).sum := by
    apply List.sum_pos
    · intro x hx
      obtain ⟨j, _, rfl⟩ := List.mem_map.1 hx
      positivity
    · apply List.ne_nil_of_length_pos
      simpa using hn
  refine ⟨?_, hperm, ?_, ?_, ?_⟩
  · intro row hr x hx
    simp only [recommend] at hr
    obtain ⟨u, hu, rfl⟩ := List.mem_map.1 hr
    obtain ⟨i, hi, rfl⟩ := List.mem_map.1 hx
    have hdu := (hd u i).1
    have hlt : draws u i < ((matArgsort s_t).headI).length := by
      rw [hlenrec]; exact hdu
    rw [List.getD_eq_getElem _ _ hlt]
    refine ⟨List.getElem_mem hlt, ?_⟩
    have hmem : ((matArgsort s_t).headI)[draws u i] ∈ (matArgsort s_t).headI :=
      List.getElem_mem hlt
    exact List.mem_range.1 (hperm.mem_iff.1 hmem)
  · intro a b hab hb
    have hS := rowArgsort_sorted s_t.headI
    have hb' : b < (rowArgsort s_t.headI).length := by
      rw [← matArgsort_headI, hlenrec]; exact hb
    have ha' : a < (rowArgsort s_t.headI).length := lt_trans hab hb'
    have hrel := (List.pairwise_iff_get.1 hS) ⟨a, ha'⟩ ⟨b, hb'⟩ hab
    rw [matArgsort_headI, List.getD_eq_getElem _ _ ha', List.getD_eq_getElem _ _ hb']
    simp only [List.get_eq_getElem] at hrel
    rcases hrel with h | ⟨h, -⟩
    · exact le_of_lt h
    · exact le_of_eq h
  · simp only [choiceWeights]
    rw [sum_map_div, div_self hp.ne']
  · intro a b hab hb
    have ha : a < num_items := lt_trans hab hb
    have hlenw : (choiceWeights num_items).length = num_items := by
      simp [choiceWeights]
    have ha2 : a < (choiceWeights num_items).length := by rw [hlenw]; exact ha
    have hb2 : b < (choiceWeights num_items).length := by rw [hlenw]; exact hb
    rw [List.getD_eq_getElem _ _ ha2, List.getD_eq_getElem _ _ hb2]
    simp only [choiceWeights, List.getElem_map, List.getElem_range]
    rw [div_lt_div_iff_of_pos_right hp]
    exact_mod_cast add_lt_add_right (by exact_mod_cast hab) 1

/-- Witness for pop_recommend_rank_weighted at a concrete input: score matrix
[[1, 0]] (two items), one user, one slot, draws fixed at rank 0. -/
theorem pop_recommend_rank_weighted_w :
    (∀ row ∈ recommend [[(1:ℚ), 0]] 2 1 1 (fun _ _ => 0), ∀ x ∈ row,
        x ∈ (matArgsort [[(1:ℚ), 0]]).headI ∧ x < 2)
    ∧ List.Perm ((matArgsort [[(1:ℚ), 0]]).headI) (List.range 2)
    ∧ (∀ a b : ℕ, a < b → b < 2 →
        ([(1:ℚ), 0] : List ℚ).getD ((matArgsort [[(1:ℚ), 0]]).headI.getD a 0) 0 ≤
          ([(1:ℚ), 0] : List ℚ).getD ((matArgsort [[(1:ℚ), 0]]).headI.getD b 0) 0)
    ∧ (choiceWeights 2).sum = 1
    ∧ (∀ a b : ℕ, a < b → b < 2 →
        (choiceWeights 2).getD a 0 < (choiceWeights 2).getD b 0) := by
  have h := pop_recommend_rank_weighted [[(1:ℚ), 0]] 2 1 1 (fun _ _ => 0)
    (by norm_num) rfl
    (by
      intro u i
      show 0 < 2 ∧ 0 < (choiceWeights 2).getD 0 0
      norm_num [choiceWeights, List.range_succ])
  exact h

theorem validMask_one (n : ℕ) (mask : List ℕ) (h : ValidMask 1 n mask) :
    mask = List.replicate n 1 := by
  obtain ⟨hlen, hall⟩ := h
  exact List.eq_replicate_iff.2 ⟨hlen, fun b hb => (hall b hb).2.1 rfl⟩

theorem nonzeroIdx_aux (n : ℕ) :
    ∀ k, ((List.enumFrom k (List.replicate n 1)).filter (fun p => p.2 ≠ 0)).map Prod.fst
      = List.range' k n := by
  induction n with
  | zero => intro k; rfl
  | succ n ih =>
      intro k
      rw [List.replicate_succ, List.enumFrom_cons]
      rw [List.filter_cons_of_pos (by simp)]
      rw [List.map_cons, ih (k + 1)]
      rfl

theorem nonzeroIdx_replicate_one (n : ℕ) :
    nonzeroIdx (List.replicate n 1) = List.range n := by
  unfold nonzeroIdx
  show ((List.enumFrom 0 (List.replicate n 1)).filter (fun p => p.2 ≠ 0)).map Prod.fst = _
  rw [nonzeroIdx_aux n 0, ← List.range_eq_range' n]

theorem length_flatMap_replicate (ipc : ℕ) (l : List ℕ) :
    (l.flatMap (fun x => List.replicate ipc x)).length = l.length * ipc := by
  induction l with
  | nil => simp
  | cons a t ih => simp [ih]; ring

theorem count_flatMap_replicate (ipc : ℕ) (l : List ℕ) (c : ℕ) :
    (l.flatMap (fun x => List.replicate ipc x)).count c = ipc * l.count c := by
  induction l with
  | nil => simp
  | cons a t ih =>
      rw [List.flatMap_cons, List.count_append, ih, List.count_replicate, List.count_cons]
      by_cases h : a = c
      · simp [h]; ring
      · simp [h]

theorem generate_items_ordered (P : List (List ℚ)) (ord : List ℕ) (ipc : ℕ)
    (mask : List ℕ) (d : List ℚ → ℕ → List (List ℚ)) :
    (generate_items P ord ipc mask d).2 =
      ord ++ (nonzeroIdx mask).flatMap (fun c => List.replicate ipc c) := rfl

theorem runOrderedIds_accum (P : List (List ℚ)) (ipc : ℕ)
    (d : List ℚ → ℕ → List (List ℚ)) :
    ∀ (masks : List (List ℕ)) (init : List ℕ),
      (∀ mask ∈ masks, ValidMask 1 P.length mask) →
      (masks.foldl (fun ord mask => (generate_items P ord ipc mask d).2) init).length
          = init.length + masks.length * (P.length * ipc)
      ∧ ∀ c, c < P.length →
          (masks.foldl (fun ord mask => (generate_items P ord ipc mask d).2) init).count c
            = init.count c + masks.length * ipc := by
  intro masks
  induction masks with
  | nil => intro init _; simp
  | cons m ms ih =>
      intro init hv
      have hstep : (generate_items P init ipc m d).2 =
          init ++ (List.range P.length).flatMap (fun c => List.replicate ipc c) := by
        rw [generate_items_ordered, validMask_one P.length m (hv m (by simp)),
          nonzeroIdx_replicate_one]
      simp only [List.foldl_cons]
      obtain ⟨hlen, hcount⟩ := ih ((generate_items P init ipc m d).2)
        (fun mk hmk => hv mk (by simp [hmk]))
      constructor
      · rw [hlen, hstep, List.length_append, length_flatMap_replicate]
        simp [List.length_range]
        ring
      · intro c hc
        rw [hcount c hc, hstep, List.count_append, count_flatMap_replicate,
          List.count_eq_one_of_mem (List.nodup_range P.length) (List.mem_range.2 hc)]
        simp [List.length_cons]
        ring

/-- Claim C10: the driver's init_sim_state fixes the Creator Engine's
creation_probability at 1.0, so every Bernoulli mask in the support is
all-ones: over any sequence of driver steps, each step appends exactly
num_creators * items_per_creator entries to ordered_creator_ids, and after
every step each creator id occurs the same number of times — namely
steps * items_per_creator. -/
theorem driver_full_participation (args : Args) (P : List (List ℚ))
    (d : List ℚ → ℕ → List (List ℚ)) (masks : List (List ℕ))
    (hm : ∀ mask ∈ masks,
        ValidMask ((init_sim_state args P).creation_probability)
          ((init_sim_state args P).actual_creator_profiles).length mask) :
    (runOrderedIds P args.items_per_creator d masks).length
        = masks.length * (P.length * args.items_per_creator)
    ∧ ∀ c, c < P.length →
        (runOrderedIds P args.items_per_creator d masks).count c
          = masks.length * args.items_per_creator := by
  have hm' : ∀ mask ∈ masks, ValidMask 1 P.length mask := by
    simpa [init_sim_state] using hm
  obtain ⟨h1, h2⟩ := runOrderedIds_accum P args.items_per_creator d masks [] hm'
  exact ⟨by simpa [runOrderedIds] using h1, fun c hc => by simpa [runOrderedIds] using h2 c hc⟩

/-- Witness for driver_full_participation: two creators, one item per creator,
two driver steps with the all-ones masks that creation_probability = 1.0
forces; ordered_creator_ids has 4 entries with each creator id occurring
twice. -/
theorem driver_full_participation_w :
    (runOrderedIds [[(1:ℚ)/2], [1/2]] 1 (fun a _ => [a]) [[1, 1], [1, 1]]).length = 4
    ∧ (runOrderedIds [[(1:ℚ)/2], [1/2]] 1 (fun a _ => [a]) [[1, 1], [1, 1]]).count 0 = 2
    ∧ (runOrderedIds [[(1:ℚ)/2], [1/2]] 1 (fun a _ => [a]) [[1, 1], [1, 1]]).count 1 = 2 := by
  have h := driver_full_participation ⟨false, 1, 2, 0, 0, 0⟩ [[(1:ℚ)/2], [1/2]]
    (fun a _ => [a]) [[1, 1], [1, 1]]
    (by
      intro mask hmk
      have hm2 : mask = [1, 1] := by
        rcases List.mem_cons.1 hmk with h | h
        · exact h
        · simpa using h
      subst hm2
      refine ⟨rfl, ?_⟩
      intro m hm'
      rcases List.mem_cons.1 hm' with rfl | hm'
      · exact ⟨Or.inr rfl, fun _ => rfl, fun h0 => absurd h0 (by norm_num [init_sim_state])⟩
      · simp only [List.mem_singleton] at hm'
        subst hm'
        exact ⟨Or.inr rfl, fun _ => rfl, fun h0 => absurd h0 (by norm_num [init_sim_state])⟩)
  refine ⟨?_, ?_, ?_⟩
  · have := h.1; simpa using this
  · have := h.2 0 (by norm_num); simpa using this
  · have := h.2 1 (by norm_num); simpa using this

/-- Claim C9, amended (positive part): within creator_sim.py the creator
engine consumes only the explicitly passed random stream, so any run prefix
is a function of the configuration and the consumed prefix of that stream:
two multi-step generate_items runs whose streams agree on the first T steps
produce identical ordered_creator_ids and identical item batches for those T
steps, regardless of how the streams differ afterwards.  The negative part —
PopularityRecommender.recommend depends on the implicit global numpy state —
is pop_recommend_global_state_dependence. -/
theorem generateRun_deterministic (P : List (List ℚ)) (ipc : ℕ)
    (s1 s2 : ℕ → List ℕ × (List ℚ → ℕ → List (List ℚ))) (T : ℕ)
    (h : ∀ t, t < T → s1 t = s2 t) :
    generateRun P ipc s1 T = generateRun P ipc s2 T := by
  induction T with
  | zero => rfl
  | succ T ih =>
      have hT : s1 T = s2 T := h T (Nat.lt_succ_self T)
      have hprev : generateRun P ipc s1 T = generateRun P ipc s2 T :=
        ih (fun t ht => h t (Nat.lt_succ_of_lt ht))
      simp only [generateRun, hprev, hT]

/-- Witness for generateRun_deterministic: two explicit streams that agree at
step 0 and differ from step 1 on produce the same one-step run. -/
theorem generateRun_deterministic_w :
    generateRun [[(1:ℚ)/2]] 1
        (fun t => if t = 0 then ([1], fun a _ => [a]) else ([0], fun a _ => [a])) 1
      = generateRun [[(1:ℚ)/2]] 1
        (fun t => if t = 0 then ([1], fun a _ => [a]) else ([1, 1], fun a _ => [a])) 1 := by
  apply generateRun_deterministic
  intro t ht
  have ht0 : t = 0 := by omega
  subst ht0
  rfl

end CreatorSim
